import Mathlib

/-!
Verification development for a SQL-to-Prisma schema converter.

The embedding below mirrors the two core services of the repository:
`SQLParser` (src/services/sql-parser.ts) and `PrismaGenerator`
(src/services/prisma-generator.ts), together with the IR types of
src/types/index.ts.  JavaScript strings are modelled as Lean `String`
(lists of characters); regular-expression matchers of the source are
hand-compiled into character-list scanners with the same matching
semantics; JS `Map`s are modelled as association lists with
most-recent-binding-first lookup.
-/

/-! ## Character and string utilities (JS semantics) -/

/-- JS `\s` for the ASCII range (space, tab, LF, CR, VT, FF). -/
def isJsSpace (c : Char) : Bool :=
  c = ' ' || c = '\t' || c = '\n' || c = '\r' || c = '\x0b' || c = '\x0c'

/-- JS `\w`: ASCII letters, digits, underscore. -/
def isWordChar (c : Char) : Bool :=
  c.isAlphanum || c = '_'

/-- JS `String.prototype.trim` (ASCII whitespace). -/
def myTrim (s : String) : String :=
  String.mk (((s.data.dropWhile isJsSpace).reverse.dropWhile isJsSpace).reverse)

/-- JS `String.prototype.toUpperCase` (ASCII). -/
def myToUpper (s : String) : String :=
  String.mk (s.data.map Char.toUpper)

/-- JS `String.prototype.toLowerCase` (ASCII). -/
def myToLower (s : String) : String :=
  String.mk (s.data.map Char.toLower)

/-- JS `String.prototype.startsWith`. -/
def myStartsWith (s pat : String) : Bool :=
  pat.data.isPrefixOf s.data

/-- JS `String.prototype.endsWith`. -/
def myEndsWith (s pat : String) : Bool :=
  pat.data.isSuffixOf s.data

/-- Split a character list on a non-empty pattern, non-overlapping, left to
right.  Fuel-based recursion (each step consumes at least one character, so
fuel equal to the list length always suffices). -/
def splitOnAux (p : List Char) : Nat → List Char → List Char → List (List Char)
  | _, [], acc => [acc.reverse]
  | 0, l, acc => [acc.reverse ++ l]
  | fuel + 1, c :: cs, acc =>
    if p.isPrefixOf (c :: cs) then
      acc.reverse :: splitOnAux p fuel (cs.drop (p.length - 1)) []
    else
      splitOnAux p fuel cs (c :: acc)

/-- JS `String.prototype.split` with a string separator. -/
def mySplitOn (s pat : String) : List String :=
  if pat.data.isEmpty then [s]
  else (splitOnAux pat.data s.data.length s.data []).map String.mk

/-- JS `String.prototype.join`-style intercalation. -/
def myIntercalate (sep : String) (l : List String) : String :=
  String.mk (List.intercalate sep.data (l.map String.data))

/-- Whether the pattern occurs as a contiguous substring. -/
def containsSubAux (p : List Char) : List Char → Bool
  | [] => false
  | c :: cs => p.isPrefixOf (c :: cs) || containsSubAux p cs

/-- JS `String.prototype.includes`. -/
def jsIncludes (s pat : String) : Bool :=
  pat.data.isEmpty || containsSubAux pat.data s.data

/-- Split at the first occurrence of a pattern: returns (chars before, chars after). -/
def splitFirstAux (p : List Char) : List Char → Option (List Char × List Char)
  | [] => none
  | c :: cs =>
    if p.isPrefixOf (c :: cs) then some ([], cs.drop (p.length - 1))
    else (splitFirstAux p cs).map (fun pr => (c :: pr.1, pr.2))

/-! ## IR types (src/types/index.ts) -/

structure SQLColumn where
  name : String
  type : String
  nullable : Bool
  defaultValue : Option String
  isPrimaryKey : Bool
  isUnique : Bool
  length : Option Nat
  isEnum : Bool
deriving DecidableEq, Repr

structure SQLConstraint where
  type : String
  columns : List String
  referencedTable : Option String
  referencedColumns : Option (List String)
deriving DecidableEq, Repr

structure SQLTable where
  name : String
  columns : List SQLColumn
  constraints : List SQLConstraint
deriving DecidableEq, Repr

structure SQLEnum where
  name : String
  values : List String
deriving DecidableEq, Repr

structure SQLParseResult where
  tables : List SQLTable
  enums : List SQLEnum
deriving DecidableEq, Repr

structure PrismaField where
  name : String
  type : String
  attributes : List String
  isOptional : Bool
  isArray : Bool
deriving DecidableEq, Repr

structure PrismaModel where
  name : String
  fields : List PrismaField
  attributes : List String
deriving DecidableEq, Repr

structure PrismaEnum where
  name : String
  values : List String
deriving DecidableEq, Repr

/-! ## SQLParser (src/services/sql-parser.ts)

Each regular expression of the source is compiled to a character-list
matcher anchored at one position; `scanMatch` replays the JS behaviour of
`String.prototype.match` by trying every start position left to right. -/

namespace SQLParser

/-- Try an anchored matcher at every suffix, leftmost match first
(JS `string.match(re)` without the `g` flag). -/
def scanMatch {α : Type} (m : List Char → Option α) : List Char → Option α
  | [] => m []
  | c :: cs =>
    match m (c :: cs) with
    | some r => some r
    | none => scanMatch m cs

/-- Match a literal case-insensitively (the `i` regex flag), returning the rest. -/
def matchStrCI : List Char → List Char → Option (List Char)
  | [], l => some l
  | _ :: _, [] => none
  | p :: ps, c :: cs => if p.toLower = c.toLower then matchStrCI ps cs else none

/-- `\s+` -/
def reqSp (l : List Char) : Option (List Char) :=
  match l with
  | c :: cs => if isJsSpace c then some (cs.dropWhile isJsSpace) else none
  | [] => none

/-- `\s*` -/
def optSp (l : List Char) : List Char :=
  l.dropWhile isJsSpace

/-- A single required literal character. -/
def reqChar (c : Char) (l : List Char) : Option (List Char) :=
  match l with
  | x :: xs => if x = c then some xs else none
  | [] => none

/-- `\w+` -/
def reqWord (l : List Char) : Option (String × List Char) :=
  let w := l.takeWhile isWordChar
  if w.isEmpty then none else some (String.mk w, l.dropWhile isWordChar)

/-- `(?:"([^"]+)"|(\w+))` — a double-quoted or bare identifier. -/
def matchIdentAlt (l : List Char) : Option (String × List Char) :=
  match l with
  | '"' :: cs =>
    let inside := cs.takeWhile (· ≠ '"')
    match cs.dropWhile (· ≠ '"') with
    | '"' :: rest => if inside.isEmpty then none else some (String.mk inside, rest)
    | _ => none
  | _ => reqWord l

/-- `\(\s*([^)]+)\s*\)` — parenthesised group; when the body is all
whitespace the regex backtracks `\s*` so that `[^)]+` captures one space. -/
def matchParenGroup (l : List Char) : Option (String × List Char) :=
  match l with
  | '(' :: r =>
    let sp := r.takeWhile isJsSpace
    let r1 := r.dropWhile isJsSpace
    let content := r1.takeWhile (· ≠ ')')
    match r1.dropWhile (· ≠ ')') with
    | ')' :: rest =>
      if content.isEmpty then
        if sp.isEmpty then none else some (" ", rest)
      else some (String.mk content, rest)
    | _ => none
  | _ => none

/-- `CREATE\s+TABLE\s+(?:"([^"]+)"|(\w+))\s*\(` (anchored). -/
def matchCreateTableHeader (l : List Char) : Option String := do
  let r ← matchStrCI "CREATE".data l
  let r ← reqSp r
  let r ← matchStrCI "TABLE".data r
  let r ← reqSp r
  let (name, r) ← matchIdentAlt r
  let _ ← reqChar '(' (optSp r)
  pure name

/-- `\(([\s\S]*)\)` — from the first `(` to the last `)`. -/
def contentBetweenParens (s : String) : Option String :=
  match s.data.dropWhile (· ≠ '(') with
  | '(' :: rest =>
    match rest.reverse.dropWhile (· ≠ ')') with
    | ')' :: revContent => some (String.mk revContent.reverse)
    | _ => none
  | _ => none

/-- Depth-aware comma split of a table body (`splitByCommas`).  The depth
counter may go negative on unbalanced input, as in the source. -/
def splitByCommasAux : List Char → Int → String → List String → List String
  | [], _, current, parts =>
    if myTrim current ≠ "" then parts ++ [myTrim current] else parts
  | c :: cs, depth, current, parts =>
    if c = '(' then splitByCommasAux cs (depth + 1) (current.push c) parts
    else if c = ')' then splitByCommasAux cs (depth - 1) (current.push c) parts
    else if c = ',' ∧ depth = 0 then splitByCommasAux cs depth "" (parts ++ [myTrim current])
    else splitByCommasAux cs depth (current.push c) parts

def splitByCommas (content : String) : List String :=
  splitByCommasAux content.data 0 "" []

/-- `/^("([^"]+)"|\w+)\s+/` — the clause begins with a plain or quoted
identifier followed by whitespace. -/
def startsWithColumnIdentifier (part : String) : Bool :=
  match part.data with
  | '"' :: cs =>
    let inside := cs.takeWhile (· ≠ '"')
    match cs.dropWhile (· ≠ '"') with
    | '"' :: c :: _ => !inside.isEmpty && isJsSpace c
    | _ => false
  | l =>
    let w := l.takeWhile isWordChar
    match l.dropWhile isWordChar with
    | c :: _ => !w.isEmpty && isJsSpace c
    | [] => false

def isConstraintDefinition (part : String) : Bool :=
  let upper := myToUpper part
  (jsIncludes upper "PRIMARY KEY" || jsIncludes upper "FOREIGN KEY" ||
   jsIncludes upper "UNIQUE" || jsIncludes upper "CHECK")
  && !(startsWithColumnIdentifier part)

def parseIdentifier (identifier : String) : String :=
  if myStartsWith identifier "\"" && myEndsWith identifier "\"" then
    String.mk (identifier.data.drop 1).dropLast
  else identifier

/-- `(\w+)\((\d+)\)` (anchored) — a type with a parenthesised length. -/
def matchTypeLenAt (l : List Char) : Option (String × Nat) := do
  let (w, r) ← reqWord l
  let r ← reqChar '(' r
  let ds := r.takeWhile Char.isDigit
  match r.dropWhile Char.isDigit with
  | ')' :: _ => if ds.isEmpty then none else some (w, (String.mk ds).toNat?.getD 0)
  | _ => none

/-- The parenthesised alternative of the DEFAULT-value regex
`\([^)]*(?:\([^)]*\)[^)]*)*\)(?:::\w+)?`.  Under leftmost/greedy
backtracking this captures from `(` to the first `)` (the starred inner
group can never fire because `[^)]*` has already consumed up to the first
`)`), plus an optional `::type` cast. -/
def matchDefaultParen (l : List Char) : Option String :=
  match l with
  | '(' :: rest =>
    let inside := rest.takeWhile (· ≠ ')')
    match rest.dropWhile (· ≠ ')') with
    | ')' :: after =>
      let cast : List Char :=
        match after with
        | ':' :: ':' :: cs =>
          let w := cs.takeWhile isWordChar
          if w.isEmpty then [] else ':' :: ':' :: w
        | _ => []
      some (String.mk (('(' :: inside) ++ ')' :: cast))
    | _ => none
  | _ => none

/-- `DEFAULT\s+((?:\(...\)(?:::\w+)?)|(?:[^,\s]+))` (anchored). -/
def matchDefaultAt (l : List Char) : Option String := do
  let r ← matchStrCI "DEFAULT".data l
  let r ← reqSp r
  match matchDefaultParen r with
  | some v => pure v
  | none =>
    let run := r.takeWhile (fun c => !(c = ',') && !(isJsSpace c))
    if run.isEmpty then none else pure (String.mk run)

/-- `REFERENCES\s+(?:"([^"]+)"|(\w+))\s*\(\s*([^)]+)\s*\)` (anchored). -/
def matchReferencesAt (l : List Char) : Option (String × String) := do
  let r ← matchStrCI "REFERENCES".data l
  let r ← reqSp r
  let (tbl, r) ← matchIdentAlt r
  let (grp, _) ← matchParenGroup (optSp r)
  pure (tbl, grp)

/-- `parseColumn`: returns the column and the foreign-key constraint the
source pushes onto the owning table when an inline REFERENCES clause is
present. -/
def parseColumn (columnDef : String) (enums : List SQLEnum) :
    Option (SQLColumn × Option SQLConstraint) :=
  let trimmed := myTrim columnDef
  let nameRem : Option (String × String) :=
    match trimmed.data with
    | '"' :: cs =>
      let inside := cs.takeWhile (· ≠ '"')
      match cs.dropWhile (· ≠ '"') with
      | '"' :: rest => some (String.mk inside, myTrim (String.mk rest))
      | _ => none
    | l =>
      let before := l.takeWhile (· ≠ ' ')
      match l.dropWhile (· ≠ ' ') with
      | ' ' :: rest => some (String.mk before, myTrim (String.mk rest))
      | _ => none
  match nameRem with
  | none => none
  | some (name, remainingDef) =>
    let parts := mySplitOn remainingDef " "
    let type0 := parts.headD ""
    let lenMatch := scanMatch matchTypeLenAt type0.data
    let type1 := match lenMatch with
      | some (t, _) => t
      | none => type0
    let length := lenMatch.map (fun p => p.2)
    let isEnum := enums.any (fun e => myToLower e.name == myToLower type1)
    let upperDef := myToUpper columnDef
    let isPrimaryKey := jsIncludes upperDef "PRIMARY KEY"
    let isUnique := jsIncludes upperDef "UNIQUE" || isPrimaryKey
    let nullable := !(jsIncludes upperDef "NOT NULL") && !isPrimaryKey
    let isIdentity := jsIncludes upperDef "GENERATED BY DEFAULT AS IDENTITY" ||
                      jsIncludes upperDef "GENERATED ALWAYS AS IDENTITY"
    let type2 :=
      if isIdentity && myToUpper type1 == "INTEGER" then "SERIAL"
      else if isIdentity && myToUpper type1 == "BIGINT" then "BIGSERIAL"
      else type1
    let defaultValue := scanMatch matchDefaultAt columnDef.data
    let fkOpt : Option SQLConstraint :=
      (scanMatch matchReferencesAt columnDef.data).map (fun p =>
        { type := "FOREIGN KEY", columns := [name], referencedTable := some p.1,
          referencedColumns :=
            some ((mySplitOn p.2 ",").map (fun c => parseIdentifier (myTrim c))) })
    some ({ name := name,
            type := if isEnum then type2 else myToUpper type2,
            nullable := nullable, defaultValue := defaultValue,
            isPrimaryKey := isPrimaryKey, isUnique := isUnique,
            length := length, isEnum := isEnum }, fkOpt)

/-- `PRIMARY\s+KEY\s*\(\s*([^)]+)\s*\)` (anchored). -/
def matchPrimaryKeyAt (l : List Char) : Option String := do
  let r ← matchStrCI "PRIMARY".data l
  let r ← reqSp r
  let r ← matchStrCI "KEY".data r
  let (grp, _) ← matchParenGroup (optSp r)
  pure grp

/-- `FOREIGN\s+KEY\s*\(\s*([^)]+)\s*\)\s*REFERENCES\s+(\w+)\s*\(\s*([^)]+)\s*\)` (anchored). -/
def matchFKAt (l : List Char) : Option (String × String × String) := do
  let r ← matchStrCI "FOREIGN".data l
  let r ← reqSp r
  let r ← matchStrCI "KEY".data r
  let (cols, r) ← matchParenGroup (optSp r)
  let r ← matchStrCI "REFERENCES".data (optSp r)
  let r ← reqSp r
  let (tbl, r) ← reqWord r
  let (refCols, _) ← matchParenGroup (optSp r)
  pure (cols, tbl, refCols)

def parseConstraint (constraintDef : String) : Option SQLConstraint :=
  let upper := myToUpper constraintDef
  let pk :=
    if jsIncludes upper "PRIMARY KEY" then scanMatch matchPrimaryKeyAt constraintDef.data
    else none
  match pk with
  | some colsRaw =>
    some { type := "PRIMARY KEY", columns := (mySplitOn colsRaw ",").map myTrim,
           referencedTable := none, referencedColumns := none }
  | none =>
    if jsIncludes upper "FOREIGN KEY" then
      match scanMatch matchFKAt constraintDef.data with
      | some (colsRaw, tbl, refColsRaw) =>
        some { type := "FOREIGN KEY", columns := (mySplitOn colsRaw ",").map myTrim,
               referencedTable := some tbl,
               referencedColumns := some ((mySplitOn refColsRaw ",").map myTrim) }
      | none => none
    else none

def parseCreateTable (statement : String) (enums : List SQLEnum) : Option SQLTable :=
  match scanMatch matchCreateTableHeader statement.data with
  | none => none
  | some tableName =>
    match contentBetweenParens statement with
    | none => none
    | some content =>
      let parts := splitByCommas content
      let colsCons := parts.foldl (fun (acc : List SQLColumn × List SQLConstraint) part =>
        let trimmed := myTrim part
        if isConstraintDefinition trimmed then
          match parseConstraint trimmed with
          | some c => (acc.1, acc.2 ++ [c])
          | none => acc
        else
          match parseColumn trimmed enums with
          | some (col, fk) =>
            (acc.1 ++ [col], acc.2 ++ (match fk with | some f => [f] | none => []))
          | none => acc) ([], [])
      some { name := tableName, columns := colsCons.1, constraints := colsCons.2 }

/-- `CREATE\s+TYPE\s+(?:"([^"]+)"|(\w+))\s+AS\s+ENUM\s*\(\s*([^)]+)\s*\)` (anchored). -/
def matchCreateEnumAt (l : List Char) : Option (String × String) := do
  let r ← matchStrCI "CREATE".data l
  let r ← reqSp r
  let r ← matchStrCI "TYPE".data r
  let r ← reqSp r
  let (name, r) ← matchIdentAlt r
  let r ← reqSp r
  let r ← matchStrCI "AS".data r
  let r ← reqSp r
  let r ← matchStrCI "ENUM".data r
  let (vals, _) ← matchParenGroup (optSp r)
  pure (name, vals)

/-- Strip one layer of matching single or double quotes from an enum value. -/
def stripValueQuotes (v : String) : String :=
  let squote := String.mk [Char.ofNat 39]
  if (myStartsWith v squote && myEndsWith v squote) ||
     (myStartsWith v "\"" && myEndsWith v "\"") then
    String.mk (v.data.drop 1).dropLast
  else v

def parseCreateEnum (statement : String) : Option SQLEnum :=
  match scanMatch matchCreateEnumAt statement.data with
  | none => none
  | some (enumName, valuesString) =>
    let values := ((mySplitOn valuesString ",").map (fun v => stripValueQuotes (myTrim v))).filter
      (fun v => v.data.length > 0)
    some { name := enumName, values := values }

/-- The tail of the ALTER TABLE foreign-key regex after the optional
`CONSTRAINT name` part:
`FOREIGN\s+KEY\s*\(\s*(?:"([^"]+)"|(\w+))\s*\)\s+REFERENCES\s+(?:"([^"]+)"|(\w+))\s*\(\s*(?:"([^"]+)"|(\w+))\s*\)`. -/
def matchAlterFKTail (l : List Char) : Option (String × String × String) := do
  let r ← matchStrCI "FOREIGN".data l
  let r ← reqSp r
  let r ← matchStrCI "KEY".data r
  let r ← reqChar '(' (optSp r)
  let (fkCol, r) ← matchIdentAlt (optSp r)
  let r ← reqChar ')' (optSp r)
  let r ← reqSp r
  let r ← matchStrCI "REFERENCES".data r
  let r ← reqSp r
  let (refTbl, r) ← matchIdentAlt r
  let r ← reqChar '(' (optSp r)
  let (refCol, r) ← matchIdentAlt (optSp r)
  let _ ← reqChar ')' (optSp r)
  pure (fkCol, refTbl, refCol)

/-- `ALTER\s+TABLE\s+(?:"([^"]+)"|(\w+))\s+ADD\s+(?:CONSTRAINT\s+(?:"[^"]+"|[\w]+)\s+)?`
followed by the foreign-key tail; the optional CONSTRAINT part is tried
first and dropped on backtracking, as the regex engine does. -/
def matchAlterFKAt (l : List Char) : Option (String × String × String × String) := do
  let r ← matchStrCI "ALTER".data l
  let r ← reqSp r
  let r ← matchStrCI "TABLE".data r
  let r ← reqSp r
  let (alterName, r) ← matchIdentAlt r
  let r ← reqSp r
  let r ← matchStrCI "ADD".data r
  let r ← reqSp r
  let withConstraint : Option (String × String × String) := do
    let r1 ← matchStrCI "CONSTRAINT".data r
    let r1 ← reqSp r1
    let (_, r1) ← matchIdentAlt r1
    let r1 ← reqSp r1
    matchAlterFKTail r1
  match withConstraint with
  | some t => pure (alterName, t)
  | none => do
    let t ← matchAlterFKTail r
    pure (alterName, t)

/-- Append a constraint to the first table with the given name, if any
(`tables.find(...)` plus an in-place push in the source). -/
def addConstraintToFirst : List SQLTable → String → SQLConstraint → List SQLTable
  | [], _, _ => []
  | t :: rest, nm, c =>
    if t.name == nm then ({ t with constraints := t.constraints ++ [c] }) :: rest
    else t :: addConstraintToFirst rest nm c

def parseAlterTableForeignKey (statement : String) (tables : List SQLTable) : List SQLTable :=
  match scanMatch matchAlterFKAt statement.data with
  | none => tables
  | some (alterTableName, foreignKeyColumn, referencedTableName, referencedColumn) =>
    addConstraintToFirst tables alterTableName
      { type := "FOREIGN KEY", columns := [foreignKeyColumn],
        referencedTable := some referencedTableName,
        referencedColumns := some [referencedColumn] }

/-- Remove `--` line comments (runs before block-comment removal, as in the source). -/
def stripLineComments (s : String) : String :=
  myIntercalate "\n" ((mySplitOn s "\n").map (fun line => (mySplitOn line "--").headD line))

/-- Remove `/* ... */` block comments (non-greedy, global). -/
def stripBlockCommentsAux : Nat → List Char → List Char
  | 0, l => l
  | n + 1, l =>
    match splitFirstAux ['/', '*'] l with
    | none => l
    | some (pre, rest) =>
      match splitFirstAux ['*', '/'] rest with
      | none => l
      | some (_, after) => pre ++ stripBlockCommentsAux n after

def stripBlockComments (s : String) : String :=
  String.mk (stripBlockCommentsAux s.data.length s.data)

/-- Collapse every whitespace run to a single space (`replace(/\s+/g, ' ')`). -/
def collapseWsAux : Bool → List Char → List Char
  | _, [] => []
  | prevSpace, c :: cs =>
    if isJsSpace c then
      if prevSpace then collapseWsAux true cs
      else ' ' :: collapseWsAux true cs
    else c :: collapseWsAux false cs

def parseSQL (sql : String) : SQLParseResult :=
  let cleanedSQL := myTrim (String.mk (collapseWsAux false
    (stripBlockComments (stripLineComments sql)).data))
  let statements := (mySplitOn cleanedSQL ";").filter (fun stmt => myTrim stmt ≠ "")
  let enums := statements.foldl (fun (acc : List SQLEnum) statement =>
    let trimmed := myTrim statement
    let upperTrimmed := myToUpper trimmed
    if myStartsWith upperTrimmed "CREATE TYPE" && jsIncludes upperTrimmed "AS ENUM" then
      match parseCreateEnum trimmed with
      | some e => acc ++ [e]
      | none => acc
    else acc) []
  let tables := statements.foldl (fun (acc : List SQLTable) statement =>
    let trimmed := myTrim statement
    if myStartsWith (myToUpper trimmed) "CREATE TABLE" then
      match parseCreateTable trimmed enums with
      | some t => acc ++ [t]
      | none => acc
    else acc) []
  let tables := statements.foldl (fun (acc : List SQLTable) statement =>
    let trimmed := myTrim statement
    let upper := myToUpper trimmed
    if myStartsWith upper "ALTER TABLE" &&
       (jsIncludes upper "ADD FOREIGN KEY" || jsIncludes upper "ADD CONSTRAINT") then
      parseAlterTableForeignKey trimmed acc
    else acc) tables
  { tables := tables, enums := enums }

end SQLParser

/-! ## PrismaGenerator (src/services/prisma-generator.ts) -/

namespace PrismaGenerator

/-- `toPascalCase`: split on `_`, capitalise each word, lowercase its tail. -/
def toPascalCase (str : String) : String :=
  String.join ((mySplitOn str "_").map (fun word =>
    match word.data with
    | [] => ""
    | c :: cs => String.mk (Char.toUpper c :: cs.map Char.toLower)))

def toCamelCase (str : String) : String :=
  match (toPascalCase str).data with
  | [] => ""
  | c :: cs => String.mk (Char.toLower c :: cs)

def pluralize (word : String) : String :=
  let lower := myToLower word
  if myEndsWith lower "s" then word
  else if myEndsWith lower "sh" || myEndsWith lower "ch" ||
          myEndsWith lower "x" || myEndsWith lower "z" then word ++ "es"
  else if myEndsWith lower "y" &&
          !(myEndsWith lower "ay" || myEndsWith lower "ey" || myEndsWith lower "iy" ||
            myEndsWith lower "oy" || myEndsWith lower "uy") then
    String.mk word.data.dropLast ++ "ies"
  else word ++ "s"

/-- `replace(/_id$/i, "")`. -/
def stripIdSuffix (s : String) : String :=
  if myEndsWith (myToLower s) "_id" then String.mk (s.data.take (s.data.length - 3))
  else s

/-- `extractForeignKeyContext`: last two underscore-separated tokens of the
foreign-key column after stripping an `_id` suffix. -/
def extractForeignKeyContext (fkColumn : String) : String :=
  let cleaned := stripIdSuffix fkColumn
  let parts := (mySplitOn cleaned "_").filter (fun p => p ≠ "")
  match parts.reverse with
  | b :: a :: _ => a ++ "_" ++ b
  | [p] => p
  | [] => cleaned

def extractRelationFieldName (fkColumn targetTable : String) : String :=
  if myToLower fkColumn == "id" then toCamelCase targetTable
  else
    let columnBase := stripIdSuffix fkColumn
    if myToLower columnBase == myToLower targetTable then toCamelCase targetTable
    else toCamelCase columnBase

/-- The relation-name counter of the source (`Map<string, number>`),
modelled as an association list where the most recent binding wins. -/
abbrev RelationCounter := List (String × Nat)

/-- `generateUniqueRelationName`: base name `<From>To<Target>`, suffixed by
the foreign-key column context on repeated use; returns the updated counter. -/
def generateUniqueRelationName (fromTable toTable fkColumn : String)
    (relationCounter : RelationCounter) : String × RelationCounter :=
  let baseName := toPascalCase fromTable ++ "To" ++ toPascalCase toTable
  let count := (relationCounter.lookup baseName).getD 0
  let relationCounter' := (baseName, count + 1) :: relationCounter
  if count > 0 then
    (baseName ++ "_" ++ toPascalCase (extractForeignKeyContext fkColumn), relationCounter')
  else (baseName, relationCounter')

/-- `generateUniqueFieldName` (the `fieldNameCounters` map of the source is
never read and is omitted).  Call sites guarantee `columns` is non-empty. -/
def generateUniqueFieldName (sourceTable targetTable : String) (columns : List String)
    (isBackRelation : Bool) : String :=
  let fkColumn := columns.headD ""
  if isBackRelation then pluralize (toCamelCase sourceTable)
  else extractRelationFieldName fkColumn targetTable

def isRelationOptional (constraint : SQLConstraint) (table : SQLTable) : Bool :=
  constraint.columns.any (fun colName =>
    match table.columns.find? (fun col => col.name == colName) with
    | some col => col.nullable
    | none => false)

/-- `createRelationField` (forward, many-to-one side).  JS truthiness: an
empty `referencedTable` string is falsy and also yields `null`. -/
def createRelationField (constraint : SQLConstraint) (table : SQLTable)
    (relationName : String) : Option PrismaField :=
  match constraint.referencedTable, constraint.referencedColumns with
  | some rt, some rcols =>
    if rt == "" || constraint.columns.isEmpty then none
    else
      some { name := generateUniqueFieldName table.name rt constraint.columns false,
             type := toPascalCase rt,
             attributes := ["@relation(\"" ++ relationName ++ "\", fields: [" ++
               myIntercalate ", " (constraint.columns.map toCamelCase) ++ "], references: [" ++
               myIntercalate ", " (rcols.map toCamelCase) ++ "])"],
             isOptional := isRelationOptional constraint table,
             isArray := false }
  | _, _ => none

/-- `createBackRelationField` (one-to-many side). -/
def createBackRelationField (constraint : SQLConstraint) (table : SQLTable)
    (relationName : String) : Option PrismaField :=
  match constraint.referencedTable with
  | some rt =>
    if rt == "" || constraint.columns.isEmpty then none
    else
      let fkCountToSameTarget := (table.constraints.filter (fun c =>
        c.type == "FOREIGN KEY" && c.referencedTable == constraint.referencedTable)).length
      let baseBackName := pluralize (toCamelCase table.name)
      let fieldName :=
        if fkCountToSameTarget > 1 then
          baseBackName ++ toPascalCase (extractForeignKeyContext (constraint.columns.headD ""))
        else baseBackName
      some { name := fieldName, type := toPascalCase table.name,
             attributes := ["@relation(\"" ++ relationName ++ "\")"],
             isOptional := false, isArray := true }
  | none => none

def mapSQLTypeToPrismaType (sqlType : String) (enums : List PrismaEnum) : String :=
  match enums.find? (fun e => e.name == toPascalCase sqlType) with
  | some e => e.name
  | none =>
    let t := myToUpper sqlType
    if t == "SERIAL" || t == "BIGSERIAL" || t == "INTEGER" || t == "INT" || t == "BIGINT" then
      "Int"
    else if t == "VARCHAR" || t == "TEXT" || t == "CHAR" then "String"
    else if t == "BOOLEAN" || t == "BOOL" then "Boolean"
    else if t == "TIMESTAMP" || t == "TIMESTAMPTZ" || t == "DATE" || t == "TIME" then "DateTime"
    else if t == "DECIMAL" || t == "NUMERIC" || t == "FLOAT" || t == "DOUBLE" || t == "REAL" then
      "Float"
    else if t == "UUID" then "String"
    else if t == "JSON" || t == "JSONB" then "Json"
    else "String"

/-- `[+-]?` then at least one digit and nothing else. -/
def signedDigitsEnd (l : List Char) : Bool :=
  let l := match l with
    | '+' :: r => r
    | '-' :: r => r
    | r => r
  !(l.takeWhile Char.isDigit).isEmpty && (l.dropWhile Char.isDigit).isEmpty

/-- An optional exponent part closing the literal. -/
def expOk (l : List Char) : Bool :=
  match l with
  | [] => true
  | c :: rest => (c = 'e' || c = 'E') && signedDigitsEnd rest

/-- A JS decimal literal (digits, optional fraction, optional exponent). -/
def isDecLit (l : List Char) : Bool :=
  match l with
  | '.' :: rest =>
    !(rest.takeWhile Char.isDigit).isEmpty && expOk (rest.dropWhile Char.isDigit)
  | _ =>
    let rest := l.dropWhile Char.isDigit
    !(l.takeWhile Char.isDigit).isEmpty &&
      (match rest with
       | '.' :: rest2 => expOk (rest2.dropWhile Char.isDigit)
       | _ => expOk rest)

def isHexDigitChar (c : Char) : Bool :=
  c.isDigit || ('a' ≤ c && c ≤ 'f') || ('A' ≤ c && c ≤ 'F')

/-- `!isNaN(Number(v))`: the JS numeric-string test (whitespace-trimmed;
empty coerces to 0; decimal, hex/octal/binary and Infinity forms). -/
def jsIsNumeric (s : String) : Bool :=
  let t := (myTrim s).data
  let core := match t with
    | '+' :: r => r
    | '-' :: r => r
    | r => r
  t.isEmpty || isDecLit core || String.mk core == "Infinity" ||
  (match t with
   | '0' :: c :: rest =>
     ((c = 'x' || c = 'X') && !rest.isEmpty && rest.all isHexDigitChar) ||
     ((c = 'o' || c = 'O') && !rest.isEmpty && rest.all (fun d => '0' ≤ d && d ≤ '7')) ||
     ((c = 'b' || c = 'B') && !rest.isEmpty && rest.all (fun d => d = '0' || d = '1'))
   | _ => false)

/-- `replace(/^\(|\)$/g, "")`: drop one leading `(` and one trailing `)`. -/
def stripOuterParens (s : String) : String :=
  let l := match s.data with
    | '(' :: r => r
    | r => r
  let l := match l.getLast? with
    | some ')' => l.dropLast
    | _ => l
  String.mk l

def jsIncludesOpt (s : Option String) (pat : String) : Bool :=
  match s with
  | some v => jsIncludes v pat
  | none => false

/-- `convertColumnToField`: attribute pushes in source order, one list
segment per `if` block. -/
def convertColumnToField (column : SQLColumn) (_table : SQLTable)
    (enums : List PrismaEnum) : PrismaField :=
  let name := toCamelCase column.name
  let pkAttrs : List String :=
    if column.isPrimaryKey then
      if column.type == "SERIAL" || column.type == "BIGSERIAL" then
        ["@id @default(autoincrement())"]
      else if column.type == "UUID" && jsIncludesOpt column.defaultValue "gen_random_uuid" then
        ["@id @default(dbgenerated(\"gen_random_uuid()\"))"]
      else ["@id"]
    else []
  let uniqueAttrs : List String :=
    if column.isUnique && !column.isPrimaryKey then ["@unique"] else []
  let defaultAttrs : List String :=
    match column.defaultValue with
    | some dv =>
      if column.isPrimaryKey then []
      else
        let upperDefault := myToUpper dv
        if upperDefault == "CURRENT_TIMESTAMP" || upperDefault == "NOW()" ||
           upperDefault == "(NOW())" then ["@default(now())"]
        else if jsIncludes dv "gen_random_uuid" then
          ["@default(dbgenerated(\"gen_random_uuid()\"))"]
        else if dv == "true" || dv == "false" then ["@default(" ++ dv ++ ")"]
        else if jsIsNumeric dv then ["@default(" ++ dv ++ ")"]
        else if jsIncludes upperDefault "NOW()" || jsIncludes upperDefault "CURRENT_TIMESTAMP" then
          ["@default(now())"]
        else if jsIncludes dv "::json" || jsIncludes dv "::jsonb" then
          ["@default(dbgenerated(\"" ++ stripOuterParens dv ++ "\"))"]
        else ["@default(\"" ++ dv ++ "\")"]
    | none => []
  let updatedAtAttrs : List String :=
    if jsIncludes column.type "TIMESTAMP" && jsIncludes (myToLower column.name) "updated" then
      ["@updatedAt"]
    else []
  let mapAttrs : List String :=
    if column.name ≠ name then ["@map(\"" ++ column.name ++ "\")"] else []
  let dbAttrs : List String :=
    (if column.type == "UUID" then ["@db.Uuid"] else []) ++
    (if column.type == "JSONB" then ["@db.JsonB"]
     else if column.type == "JSON" then ["@db.Json"] else [])
  { name := name,
    type := mapSQLTypeToPrismaType column.type (if column.isEnum then enums else []),
    attributes := pkAttrs ++ uniqueAttrs ++ defaultAttrs ++ updatedAtAttrs ++ mapAttrs ++ dbAttrs,
    isOptional := column.nullable && !column.isPrimaryKey,
    isArray := false }

/-- `createBasicModel` (first pass: scalar fields only). -/
def createBasicModel (table : SQLTable) (enums : List PrismaEnum) : PrismaModel :=
  let modelName := toPascalCase table.name
  { name := modelName,
    fields := table.columns.map (fun c => convertColumnToField c table enums),
    attributes :=
      if table.name ≠ myToLower modelName then ["@@map(\"" ++ table.name ++ "\")"] else [] }

/-- Push a field onto the first model with the given name (the source
finds the model object in the array and mutates its `fields`). -/
def pushFieldToFirst : List PrismaModel → String → PrismaField → List PrismaModel
  | [], _, _ => []
  | m :: rest, nm, f =>
    if m.name == nm then ({ m with fields := m.fields ++ [f] }) :: rest
    else m :: pushFieldToFirst rest nm f

/-- State of the second generation pass: models plus the relation counter. -/
abbrev GenState := List PrismaModel × RelationCounter

/-- Push the forward relation field (if any) onto the source model. -/
def pass2AddForward (table : SQLTable) (relationName : String)
    (models : List PrismaModel) (constraint : SQLConstraint) : List PrismaModel :=
  match createRelationField constraint table relationName with
  | some f => pushFieldToFirst models (toPascalCase table.name) f
  | none => models

/-- Push the back-relation field (if any) onto the referenced model; when
that model is absent (`models.find(...)` comes back empty) the source does
nothing. -/
def pass2AddBack (table : SQLTable) (rt relationName : String)
    (models : List PrismaModel) (constraint : SQLConstraint) : List PrismaModel :=
  match createBackRelationField constraint table relationName with
  | some b =>
    if models.any (fun m => m.name == toPascalCase rt) then
      pushFieldToFirst models (toPascalCase rt) b
    else models
  | none => models

/-- The body of the foreign-key branch: derive the shared relation name,
add the forward field, then the back-relation. -/
def pass2Apply (table : SQLTable) (acc : GenState) (rt : String)
    (constraint : SQLConstraint) : GenState :=
  let rn := generateUniqueRelationName table.name rt (constraint.columns.headD "") acc.2
  (pass2AddBack table rt rn.1 (pass2AddForward table rn.1 acc.1 constraint) constraint, rn.2)

/-- One foreign-key constraint of the second pass: derive the relation
name, push the forward field onto the source model, and push the
back-relation onto the referenced model when it exists. -/
def pass2Step (table : SQLTable) (acc : GenState) (constraint : SQLConstraint) : GenState :=
  match constraint.referencedTable with
  | some rt =>
    if constraint.type == "FOREIGN KEY" && rt != "" then
      pass2Apply table acc rt constraint
    else acc
  | none => acc

def processTable (acc : GenState) (table : SQLTable) : GenState :=
  table.constraints.foldl (pass2Step table) acc

/-- `convertTablesToModels`: first pass creates scalar-only models, second
pass adds relation fields. -/
def convertTablesToModels (tables : List SQLTable) (enums : List PrismaEnum) :
    List PrismaModel :=
  let models := tables.map (fun t => createBasicModel t enums)
  (tables.foldl processTable (models, [])).1

def convertEnumsToPrismaEnums (enums : List SQLEnum) : List PrismaEnum :=
  enums.map (fun e => { name := toPascalCase e.name, values := e.values })

def typeStr (field : PrismaField) : String :=
  field.type ++ (if field.isOptional then "?" else "") ++ (if field.isArray then "[]" else "")

/-- `padEnd` with spaces. -/
def padEnd (s : String) (n : Nat) : String :=
  s ++ String.mk (List.replicate (n - s.data.length) ' ')

def isRelationField (field : PrismaField) : Bool :=
  field.attributes.any (fun attr => jsIncludes attr "@relation")

def formatField (maxF maxT : Nat) (field : PrismaField) : String :=
  let attributes := myIntercalate " " field.attributes
  "  " ++ padEnd field.name maxF ++ " " ++ padEnd (typeStr field) maxT ++
  (if attributes ≠ "" then " " ++ attributes else "") ++ "\n"

/-- `formatModel`.  `Math.max()` over an empty field list is `-Infinity` in
the source, in which case no field line is emitted at all; folding from 0
is therefore output-equivalent. -/
def formatModel (model : PrismaModel) : String :=
  let maxF := (model.fields.map (fun f => f.name.data.length)).foldl Nat.max 0
  let maxT := (model.fields.map (fun f => (typeStr f).data.length)).foldl Nat.max 0
  let scalarFields := model.fields.filter (fun f => !isRelationField f)
  let relationFields := model.fields.filter isRelationField
  "model " ++ model.name ++ " \x7b\n" ++
  String.join (scalarFields.map (formatField maxF maxT)) ++
  (if relationFields.length > 0 then
    "\n  // Relations\n" ++ String.join (relationFields.map (formatField maxF maxT))
   else "") ++
  (if model.attributes.length > 0 then
    "\n" ++ String.join (model.attributes.map (fun a => "  " ++ a ++ "\n"))
   else "") ++
  "\x7d"

def formatEnum (enumDef : PrismaEnum) : String :=
  "enum " ++ enumDef.name ++ " \x7b\n" ++
  myIntercalate "\n" (enumDef.values.map (fun v => "  " ++ v)) ++ "\n\x7d"

def schemaHeader : String :=
  "// Generated Prisma schema\ngenerator client \x7b\n  provider = \"prisma-client-js\"\n\x7d\n\ndatasource db \x7b\n  provider = \"postgresql\"\n  url      = env(\"DATABASE_URL\")\n\x7d\n\n"

def generatePrismaSchema (parseResult : SQLParseResult) : String :=
  let enums := convertEnumsToPrismaEnums parseResult.enums
  let models := convertTablesToModels parseResult.tables enums
  let enumsString :=
    if enums.length > 0 then myIntercalate "\n\n" (enums.map formatEnum) ++ "\n\n" else ""
  schemaHeader ++ enumsString ++ myIntercalate "\n\n" (models.map formatModel)

end PrismaGenerator

/-- The conversion pipeline as invoked by the UI layer
(src/pages/converter.tsx): parse, then generate. -/
def convertSQLToPrisma (input : String) : String :=
  PrismaGenerator.generatePrismaSchema (SQLParser.parseSQL input)

/-- The models produced for a parse result, as computed inside
`generatePrismaSchema` before formatting. -/
def modelsFor (r : SQLParseResult) : List PrismaModel :=
  PrismaGenerator.convertTablesToModels r.tables (PrismaGenerator.convertEnumsToPrismaEnums r.enums)

/-! ## Concrete inputs used in the claims -/

/-- The two-table scenario input of the specification. -/
def usersPostsSQL : String :=
  "CREATE TABLE users (id SERIAL PRIMARY KEY, email VARCHAR(255) UNIQUE NOT NULL); CREATE TABLE posts (id SERIAL PRIMARY KEY, author_id INTEGER REFERENCES users(id));"

/-- A CREATE TABLE statement with a table-level FOREIGN KEY clause. -/
def tableLevelFKSQL : String :=
  "CREATE TABLE posts (id SERIAL PRIMARY KEY, FOREIGN KEY (author_id) REFERENCES users(id));"

/-- One syntactically broken CREATE TABLE (unclosed parenthesis) next to a
well-formed one. -/
def brokenPlusGoodSQL : String :=
  "CREATE TABLE broken (id INTEGER; CREATE TABLE users (id SERIAL PRIMARY KEY);"

/-- A `SERIAL PRIMARY KEY` id column, as the parser produces it. -/
def sampleIdColumn : SQLColumn :=
  { name := "id", type := "SERIAL", nullable := false, defaultValue := none,
    isPrimaryKey := true, isUnique := true, length := none, isEnum := false }

/-- An IR table named `users` with a single id column. -/
def usersTable : SQLTable :=
  { name := "users", columns := [sampleIdColumn], constraints := [] }

/-- Two distinct foreign keys from `posts` to `users` whose columns share
the same last-two-token context (`created_by`). -/
def fkUserCreatedBy : SQLConstraint :=
  { type := "FOREIGN KEY", columns := ["user_created_by"],
    referencedTable := some "users", referencedColumns := some ["id"] }

def fkCreatedBy : SQLConstraint :=
  { type := "FOREIGN KEY", columns := ["created_by"],
    referencedTable := some "users", referencedColumns := some ["id"] }

def postsTwoFKsTable : SQLTable :=
  { name := "posts", columns := [sampleIdColumn],
    constraints := [fkUserCreatedBy, fkCreatedBy] }

/-- A foreign key whose `referencedTable` (`USERS`) is the name of no table
in the IR, although its PascalCase form matches the `users` model. -/
def fkUpperUsers : SQLConstraint :=
  { type := "FOREIGN KEY", columns := ["author_id"],
    referencedTable := some "USERS", referencedColumns := some ["id"] }

def postsUpperFKTable : SQLTable :=
  { name := "posts", columns := [sampleIdColumn], constraints := [fkUpperUsers] }

/-! ## Structural lemmas about the second generation pass -/

/-- Name and table-level attributes of a model, the data the second pass
never touches. -/
def modelProj (m : PrismaModel) : String × List String :=
  (m.name, m.attributes)

theorem pushFieldToFirst_proj (models : List PrismaModel) (nm : String) (f : PrismaField) :
    (PrismaGenerator.pushFieldToFirst models nm f).map modelProj = models.map modelProj := by
  induction models with
  | nil => rfl
  | cons m rest ih =>
    simp only [PrismaGenerator.pushFieldToFirst]
    split
    · simp [modelProj]
    · simp [modelProj, ih]

theorem pushFieldToFirst_names (models : List PrismaModel) (nm : String) (f : PrismaField) :
    (PrismaGenerator.pushFieldToFirst models nm f).map (fun m => m.name) =
      models.map (fun m => m.name) := by
  have h := congrArg (List.map Prod.fst) (pushFieldToFirst_proj models nm f)
  simpa [List.map_map, Function.comp_def, modelProj] using h

theorem pass2AddForward_proj (table : SQLTable) (rn : String)
    (models : List PrismaModel) (c : SQLConstraint) :
    (PrismaGenerator.pass2AddForward table rn models c).map modelProj = models.map modelProj := by
  unfold PrismaGenerator.pass2AddForward
  split
  · exact pushFieldToFirst_proj _ _ _
  · rfl

theorem pass2AddBack_proj (table : SQLTable) (rt rn : String)
    (models : List PrismaModel) (c : SQLConstraint) :
    (PrismaGenerator.pass2AddBack table rt rn models c).map modelProj = models.map modelProj := by
  unfold PrismaGenerator.pass2AddBack
  split
  · split
    · exact pushFieldToFirst_proj _ _ _
    · rfl
  · rfl

theorem pass2Step_proj (table : SQLTable) (acc : PrismaGenerator.GenState)
    (c : SQLConstraint) :
    (PrismaGenerator.pass2Step table acc c).1.map modelProj = acc.1.map modelProj := by
  unfold PrismaGenerator.pass2Step
  split
  · split
    · rw [PrismaGenerator.pass2Apply, pass2AddBack_proj, pass2AddForward_proj]
    · rfl
  · rfl

theorem foldl_pass2Step_proj (table : SQLTable) (cs : List SQLConstraint)
    (acc : PrismaGenerator.GenState) :
    ((cs.foldl (PrismaGenerator.pass2Step table) acc).1.map modelProj) = acc.1.map modelProj := by
  induction cs generalizing acc with
  | nil => rfl
  | cons c cs ih => rw [List.foldl_cons, ih, pass2Step_proj]

theorem processTable_proj (acc : PrismaGenerator.GenState) (table : SQLTable) :
    (PrismaGenerator.processTable acc table).1.map modelProj = acc.1.map modelProj :=
  foldl_pass2Step_proj table table.constraints acc

theorem foldl_processTable_proj (ts : List SQLTable) (acc : PrismaGenerator.GenState) :
    ((ts.foldl PrismaGenerator.processTable acc).1.map modelProj) = acc.1.map modelProj := by
  induction ts generalizing acc with
  | nil => rfl
  | cons t ts ih => rw [List.foldl_cons, ih, processTable_proj]

/-- The second pass changes neither model names nor table-level attributes:
both are fixed by `createBasicModel`. -/
theorem convertTablesToModels_proj (tables : List SQLTable) (enums : List PrismaEnum) :
    (PrismaGenerator.convertTablesToModels tables enums).map modelProj =
      tables.map (fun t =>
        (PrismaGenerator.toPascalCase t.name,
         if t.name ≠ myToLower (PrismaGenerator.toPascalCase t.name) then
           ["@@map(\"" ++ t.name ++ "\")"]
         else [])) := by
  unfold PrismaGenerator.convertTablesToModels
  rw [foldl_processTable_proj]
  simp [modelProj, PrismaGenerator.createBasicModel]

theorem find?_ne_none_of_mem {α : Type} (p : α → Bool) {l : List α} {a : α}
    (ha : a ∈ l) (hp : p a = true) : l.find? p ≠ none := by
  intro hnone
  exact (List.find?_eq_none.mp hnone) a ha hp

theorem two_le_length_of_two_mem {α : Type} {l : List α} {a b : α}
    (ha : a ∈ l) (hb : b ∈ l) (hab : a ≠ b) : 2 ≤ l.length := by
  rcases List.append_of_mem ha with ⟨s, t, rfl⟩
  rcases List.mem_append.mp hb with hbs | hbt
  · have := List.length_pos_of_mem hbs
    simp [List.length_append]
    omega
  · rcases List.mem_cons.mp hbt with heq | hbt'
    · exact absurd heq.symm hab
    · have := List.length_pos_of_mem hbt'
      simp [List.length_append]
      omega

theorem two_le_length_filter {α : Type} (p : α → Bool) {l : List α} {a b : α}
    (ha : a ∈ l) (hb : b ∈ l) (hab : a ≠ b) (hpa : p a = true) (hpb : p b = true) :
    2 ≤ (l.filter p).length :=
  two_le_length_of_two_mem (List.mem_filter.mpr ⟨ha, hpa⟩) (List.mem_filter.mpr ⟨hb, hpb⟩) hab

theorem string_append_left_inj (a : String) {x y : String} (h : x ≠ y) :
    a ++ x ≠ a ++ y := by
  intro he
  apply h
  have hdata : a.data ++ x.data = a.data ++ y.data := congrArg String.data he
  have hxy := List.append_cancel_left hdata
  cases x
  cases y
  exact congrArg String.mk hxy

theorem string_ne_append_longer (a sep x : String) (hsep : 0 < sep.data.length) :
    a ≠ a ++ sep ++ x := by
  intro he
  have hd : a.data = (a.data ++ sep.data) ++ x.data := congrArg String.data he
  have hlen := congrArg List.length hd
  rw [List.length_append, List.length_append] at hlen
  omega

/-! ## Claims -/

set_option maxRecDepth 1000000

/-- Claim C1, counterexample.  Parsing and generating
`CREATE TABLE users (...); CREATE TABLE posts (...);` yields models named
`Users` and `Posts` — the PascalCase of the table names without any
singularisation — so no model named `User` exists, contrary to the claim. -/
theorem claim1_counterexample :
    ((modelsFor (SQLParser.parseSQL usersPostsSQL)).map (fun m => m.name) = ["Users", "Posts"])
    ∧ ¬ ("User" ∈ (modelsFor (SQLParser.parseSQL usersPostsSQL)).map (fun m => m.name)) := by
  decide

/-- Claim C1, amended.  For every parsed table, the generated model's name
is the PascalCase form of the source table name (no singularisation is
performed). -/
theorem claim1_pascal_names (tables : List SQLTable) (enums : List PrismaEnum) :
    (PrismaGenerator.convertTablesToModels tables enums).map (fun m => m.name) =
      tables.map (fun t => PrismaGenerator.toPascalCase t.name) := by
  have h := congrArg (List.map Prod.fst) (convertTablesToModels_proj tables enums)
  simpa [List.map_map, Function.comp_def, modelProj] using h

/-- Claim C2.  A top-level `FOREIGN KEY (author_id) REFERENCES users(id)`
clause is NOT classified as a constraint clause (it begins with the plain
identifier `FOREIGN` followed by whitespace), so the dedicated FOREIGN KEY
matcher never sees it: the column parser runs instead, creating a column
named `FOREIGN` of type `KEY` and — through the inline REFERENCES matcher —
a FOREIGN KEY constraint whose columns are `["FOREIGN"]` rather than
`["author_id"]`. -/
theorem claim2_code_eval :
    (SQLParser.isConstraintDefinition "FOREIGN KEY (author_id) REFERENCES users(id)" = false)
    ∧ ((SQLParser.parseSQL tableLevelFKSQL).tables.map
        (fun t => (t.name, t.columns.map (fun c => (c.name, c.type)), t.constraints)) =
      [("posts", [("id", "SERIAL"), ("FOREIGN", "KEY")],
        [{ type := "FOREIGN KEY", columns := ["FOREIGN"], referencedTable := some "users",
           referencedColumns := some ["id"] }])]) := by
  decide

/-- Claim C3, counterexample.  For the IR table `users` the derived model
name is `Users`, which differs from the source name, yet the generated
model carries no `@@map` attribute: the source compares the table name with
the lowercased model name, not with the model name itself. -/
theorem claim3_counterexample :
    ((PrismaGenerator.convertTablesToModels [usersTable] []).map
        (fun m => (m.name, m.attributes)) = [("Users", [])])
    ∧ usersTable.name ≠ "Users" := by
  decide

/-- Claim C3, amended.  The generated model carries the `@@map` attribute
(with the source table name) if and only if the source table name differs
from the lowercased derived model name. -/
theorem claim3_map_iff (tables : List SQLTable) (enums : List PrismaEnum) (i : Nat) :
    ((PrismaGenerator.convertTablesToModels tables enums)[i]?).map (fun m => m.attributes) =
      (tables[i]?).map (fun t =>
        if t.name ≠ myToLower (PrismaGenerator.toPascalCase t.name) then
          ["@@map(\"" ++ t.name ++ "\")"]
        else []) := by
  have h := congrArg (List.map Prod.snd) (convertTablesToModels_proj tables enums)
  simp only [List.map_map] at h
  have h2 := congrArg (fun l => l[i]?) h
  simpa [List.getElem?_map, Function.comp_def, modelProj] using h2

/-- Claim C4.  For the two-table scenario input, the `users`-derived model
(`Users`) contains the array back-relation field `posts` and the
`posts`-derived model contains the singular forward field `author` of type
`Users`, optional because `author_id` is parsed as nullable. -/
theorem claim4_scenario :
    (modelsFor (SQLParser.parseSQL usersPostsSQL) =
      [{ name := "Users",
         fields := [
           { name := "id", type := "Int", attributes := ["@id @default(autoincrement())"],
             isOptional := false, isArray := false },
           { name := "email", type := "String", attributes := ["@unique"],
             isOptional := false, isArray := false },
           { name := "posts", type := "Posts", attributes := ["@relation(\"PostsToUsers\")"],
             isOptional := false, isArray := true }],
         attributes := [] },
       { name := "Posts",
         fields := [
           { name := "id", type := "Int", attributes := ["@id @default(autoincrement())"],
             isOptional := false, isArray := false },
           { name := "authorId", type := "Int", attributes := ["@map(\"author_id\")"],
             isOptional := true, isArray := false },
           { name := "author", type := "Users",
             attributes := ["@relation(\"PostsToUsers\", fields: [authorId], references: [id])"],
             isOptional := true, isArray := false }],
         attributes := [] }])
    ∧ ((SQLParser.parseSQL usersPostsSQL).tables.map
        (fun t => t.columns.map (fun c => (c.name, c.nullable)))) =
      [[("id", false), ("email", false)], [("id", false), ("author_id", true)]] := by
  decide

/-- Claim C5, counterexample.  The IR table `posts` holds two distinct
FOREIGN KEY constraints to `users` whose columns `user_created_by` and
`created_by` share the same last-two-token context, so both back-relation
fields added to the `Users` model are named `postsCreatedBy`: the two
back-relation field names are NOT distinct. -/
theorem claim5_counterexample :
    fkUserCreatedBy ≠ fkCreatedBy
    ∧ fkUserCreatedBy ∈ postsTwoFKsTable.constraints
    ∧ fkCreatedBy ∈ postsTwoFKsTable.constraints
    ∧ ((PrismaGenerator.convertTablesToModels [usersTable, postsTwoFKsTable] []).map
        (fun m => (m.name, m.fields.map (fun f => f.name))) =
      [("Users", ["id", "postsCreatedBy", "postsCreatedBy"]),
       ("Posts", ["id", "userCreatedBy", "createdBy"])]) := by
  decide

/-- Claim C5, amended.  For two distinct FOREIGN KEY constraints of a table
targeting the same table, the two back-relation field names are distinct
PROVIDED the PascalCase forms of the two foreign-key column contexts
differ (otherwise they collide, as the counterexample shows); under the
same proviso the two relation-name strings are distinct, the second
constraint always receiving a context suffix because the counter for the
shared base name was already incremented. -/
theorem claim5_disambiguation
    (table : SQLTable) (rt : String) (c1 c2 : SQLConstraint) (rn1 rn2 : String)
    (m1 m2 : PrismaGenerator.RelationCounter)
    (h1 : c1 ∈ table.constraints) (h2 : c2 ∈ table.constraints) (hne : c1 ≠ c2)
    (ht1 : c1.type = "FOREIGN KEY") (ht2 : c2.type = "FOREIGN KEY")
    (hr1 : c1.referencedTable = some rt) (hr2 : c2.referencedTable = some rt)
    (hrt : rt ≠ "") (hc1 : c1.columns ≠ []) (hc2 : c2.columns ≠ [])
    (hctx : PrismaGenerator.toPascalCase (PrismaGenerator.extractForeignKeyContext (c1.columns.headD ""))
          ≠ PrismaGenerator.toPascalCase (PrismaGenerator.extractForeignKeyContext (c2.columns.headD "")))
    (hcount :
      ((m1.lookup (PrismaGenerator.toPascalCase table.name ++ "To" ++ PrismaGenerator.toPascalCase rt)).getD 0) <
      ((m2.lookup (PrismaGenerator.toPascalCase table.name ++ "To" ++ PrismaGenerator.toPascalCase rt)).getD 0)) :
    ((PrismaGenerator.createBackRelationField c1 table rn1).map (fun f => f.name) ≠
     (PrismaGenerator.createBackRelationField c2 table rn2).map (fun f => f.name))
    ∧ (PrismaGenerator.generateUniqueRelationName table.name rt (c1.columns.headD "") m1).1 ≠
      (PrismaGenerator.generateUniqueRelationName table.name rt (c2.columns.headD "") m2).1 := by
  have hfk : 1 < (table.constraints.filter (fun c =>
      c.type == "FOREIGN KEY" && c.referencedTable == some rt)).length := by
    have := two_le_length_filter
      (fun c => c.type == "FOREIGN KEY" && c.referencedTable == some rt)
      h1 h2 hne (by simp [ht1, hr1]) (by simp [ht2, hr2])
    omega
  constructor
  · have hb1 : (PrismaGenerator.createBackRelationField c1 table rn1).map (fun f => f.name) =
        some (PrismaGenerator.pluralize (PrismaGenerator.toCamelCase table.name) ++
          PrismaGenerator.toPascalCase
            (PrismaGenerator.extractForeignKeyContext (c1.columns.headD ""))) := by
      simp [PrismaGenerator.createBackRelationField, hr1, hrt, hc1, hfk]
    have hb2 : (PrismaGenerator.createBackRelationField c2 table rn2).map (fun f => f.name) =
        some (PrismaGenerator.pluralize (PrismaGenerator.toCamelCase table.name) ++
          PrismaGenerator.toPascalCase
            (PrismaGenerator.extractForeignKeyContext (c2.columns.headD ""))) := by
      simp [PrismaGenerator.createBackRelationField, hr2, hrt, hc2, hfk]
    rw [hb1, hb2]
    intro he
    exact string_append_left_inj _ hctx (Option.some.inj he)
  · have h2pos : 0 < ((m2.lookup (PrismaGenerator.toPascalCase table.name ++ "To" ++
        PrismaGenerator.toPascalCase rt)).getD 0) := by omega
    by_cases h0 : 0 < ((m1.lookup (PrismaGenerator.toPascalCase table.name ++ "To" ++
        PrismaGenerator.toPascalCase rt)).getD 0)
    · simp only [PrismaGenerator.generateUniqueRelationName, if_pos h0, if_pos h2pos]
      exact string_append_left_inj _ hctx
    · simp only [PrismaGenerator.generateUniqueRelationName, if_neg h0, if_pos h2pos]
      exact string_ne_append_longer _ "_" _ (by decide)

/-- Two foreign keys from `posts` to `users` with distinct column contexts
(`author_id` and `editor_id`), used to witness the amended claim C5. -/
def fkAuthor : SQLConstraint :=
  { type := "FOREIGN KEY", columns := ["author_id"],
    referencedTable := some "users", referencedColumns := some ["id"] }

def fkEditor : SQLConstraint :=
  { type := "FOREIGN KEY", columns := ["editor_id"],
    referencedTable := some "users", referencedColumns := some ["id"] }

def postsDistinctFKsTable : SQLTable :=
  { name := "posts", columns := [sampleIdColumn], constraints := [fkAuthor, fkEditor] }

/-- Witness for the amended claim C5 at a concrete table with two
context-distinct foreign keys to `users`. -/
theorem claim5_witness :
    ((PrismaGenerator.createBackRelationField fkAuthor postsDistinctFKsTable "r1").map
        (fun f => f.name) ≠
      (PrismaGenerator.createBackRelationField fkEditor postsDistinctFKsTable "r2").map
        (fun f => f.name))
    ∧ (PrismaGenerator.generateUniqueRelationName postsDistinctFKsTable.name "users"
          (fkAuthor.columns.headD "") []).1 ≠
      (PrismaGenerator.generateUniqueRelationName postsDistinctFKsTable.name "users"
          (fkEditor.columns.headD "") [("PostsToUsers", 1)]).1 :=
  claim5_disambiguation postsDistinctFKsTable "users" fkAuthor fkEditor "r1" "r2"
    [] [("PostsToUsers", 1)]
    (by decide) (by decide) (by decide) rfl rfl rfl rfl (by decide) (by decide) (by decide)
    (by decide) (by decide)

/-- Claim C6.  A generated scalar field is optional iff the source column
is nullable and not a primary key, and every SERIAL/BIGSERIAL primary-key
column receives `@id @default(autoincrement())`. -/
theorem claim6_optionality_autoincrement (column : SQLColumn) (table : SQLTable)
    (enums : List PrismaEnum) :
    ((PrismaGenerator.convertColumnToField column table enums).isOptional
      = (column.nullable && !column.isPrimaryKey))
    ∧ (column.isPrimaryKey = true →
       (column.type = "SERIAL" ∨ column.type = "BIGSERIAL") →
       "@id @default(autoincrement())" ∈
         (PrismaGenerator.convertColumnToField column table enums).attributes) := by
  refine ⟨rfl, fun hpk htype => ?_⟩
  unfold PrismaGenerator.convertColumnToField
  rcases htype with h | h <;> simp [hpk, h]

/-- Witness for claim C6 at the `id SERIAL PRIMARY KEY` column. -/
theorem claim6_witness :
    ((PrismaGenerator.convertColumnToField sampleIdColumn usersTable []).isOptional
      = (sampleIdColumn.nullable && !sampleIdColumn.isPrimaryKey))
    ∧ "@id @default(autoincrement())" ∈
        (PrismaGenerator.convertColumnToField sampleIdColumn usersTable []).attributes :=
  ⟨(claim6_optionality_autoincrement sampleIdColumn usersTable []).1,
   (claim6_optionality_autoincrement sampleIdColumn usersTable []).2 rfl (Or.inl rfl)⟩

/-- Claim C7, counterexample.  The foreign key on `posts` references
`USERS`, which names NO table in the IR (`users` and `posts` are the only
table names); yet the back-relation `posts` IS added to the `Users` model,
because the lookup compares PascalCase forms (`toPascalCase "USERS" =
"Users"`).  The back-relation step is not skipped, contrary to the claim. -/
theorem claim7_counterexample :
    (¬ ("USERS" ∈ [usersTable, postsUpperFKTable].map (fun t => t.name)))
    ∧ ((PrismaGenerator.convertTablesToModels [usersTable, postsUpperFKTable] []).map
        (fun m => (m.name, m.fields.map (fun f => f.name))) =
      [("Users", ["id", "posts"]), ("Posts", ["id", "author"])]) := by
  decide

/-- Claim C7, amended.  For a FOREIGN KEY constraint whose referencedTable
has a PascalCase form matching no model name, the second-pass step still
emits the forward relation field on the source model, adds no
back-relation field to any model, raises no error, and leaves every other
model unchanged (the step result is exactly a push of the forward field
onto the source model). -/
theorem claim7_forward_only (models : List PrismaModel)
    (counter : PrismaGenerator.RelationCounter) (table : SQLTable) (c : SQLConstraint)
    (rt : String) (rcols : List String)
    (ht : c.type = "FOREIGN KEY") (hr : c.referencedTable = some rt) (hrt : rt ≠ "")
    (hc : c.columns ≠ []) (hrc : c.referencedColumns = some rcols)
    (hmiss : ∀ m ∈ models, m.name ≠ PrismaGenerator.toPascalCase rt) :
    ∃ fwd,
      PrismaGenerator.createRelationField c table
          (PrismaGenerator.generateUniqueRelationName table.name rt
            (c.columns.headD "") counter).1 = some fwd
      ∧ PrismaGenerator.pass2Step table (models, counter) c =
          (PrismaGenerator.pushFieldToFirst models (PrismaGenerator.toPascalCase table.name) fwd,
           (PrismaGenerator.generateUniqueRelationName table.name rt
             (c.columns.headD "") counter).2) := by
  have hfwd0 : PrismaGenerator.createRelationField c table
      (PrismaGenerator.generateUniqueRelationName table.name rt
        (c.columns.headD "") counter).1 ≠ none := by
    simp [PrismaGenerator.createRelationField, hr, hrc, hrt, hc]
  obtain ⟨fwd, hfwd⟩ := Option.ne_none_iff_exists'.mp hfwd0
  refine ⟨fwd, hfwd, ?_⟩
  have hback0 : PrismaGenerator.createBackRelationField c table
      (PrismaGenerator.generateUniqueRelationName table.name rt
        (c.columns.headD "") counter).1 ≠ none := by
    simp [PrismaGenerator.createBackRelationField, hr, hrt, hc]
  obtain ⟨b, hb⟩ := Option.ne_none_iff_exists'.mp hback0
  have hany : ((PrismaGenerator.pushFieldToFirst models
      (PrismaGenerator.toPascalCase table.name) fwd).any
      (fun m => m.name == PrismaGenerator.toPascalCase rt)) = false := by
    rw [List.any_eq_false]
    intro m hm
    have hmem : m.name ∈ (PrismaGenerator.pushFieldToFirst models
        (PrismaGenerator.toPascalCase table.name) fwd).map (fun m => m.name) :=
      List.mem_map_of_mem _ hm
    rw [pushFieldToFirst_names] at hmem
    rcases List.mem_map.mp hmem with ⟨m0, hm0, hname⟩
    intro hbeq
    exact (hmiss m0 hm0) (hname ▸ (beq_iff_eq.mp hbeq))
  have hcond : (c.type == "FOREIGN KEY" && rt != "") = true := by simp [ht, hrt]
  unfold PrismaGenerator.pass2Step
  rw [hr]
  simp only [hcond, if_true]
  simp only [PrismaGenerator.pass2Apply, PrismaGenerator.pass2AddForward,
    PrismaGenerator.pass2AddBack, hfwd, hb, hany]
  simp

/-- Witness for the amended claim C7: the `ghosts` table is absent, the
step pushes only the forward field onto the `Posts` model. -/
def fkGhosts : SQLConstraint :=
  { type := "FOREIGN KEY", columns := ["author_id"],
    referencedTable := some "ghosts", referencedColumns := some ["id"] }

def postsGhostTable : SQLTable :=
  { name := "posts", columns := [sampleIdColumn], constraints := [fkGhosts] }

theorem claim7_witness :
    ∃ fwd,
      PrismaGenerator.createRelationField fkGhosts postsGhostTable
          (PrismaGenerator.generateUniqueRelationName postsGhostTable.name "ghosts"
            (fkGhosts.columns.headD "") []).1 = some fwd
      ∧ PrismaGenerator.pass2Step postsGhostTable
          ([PrismaGenerator.createBasicModel usersTable []], []) fkGhosts =
          (PrismaGenerator.pushFieldToFirst [PrismaGenerator.createBasicModel usersTable []]
            (PrismaGenerator.toPascalCase postsGhostTable.name) fwd,
           (PrismaGenerator.generateUniqueRelationName postsGhostTable.name "ghosts"
             (fkGhosts.columns.headD "") []).2) :=
  claim7_forward_only [PrismaGenerator.createBasicModel usersTable []] [] postsGhostTable
    fkGhosts "ghosts" ["id"] rfl rfl (by decide) (by decide) rfl (by decide)

/-- Claim C8.  A batch with one syntactically broken CREATE TABLE
(unclosed parenthesis) alongside a well-formed one still yields the
well-formed table; the embedded `parseSQL` is a total function, so no
exception can escape it. -/
theorem claim8_malformed_tolerance :
    SQLParser.parseSQL brokenPlusGoodSQL =
      { tables := [{ name := "users", columns := [sampleIdColumn], constraints := [] }],
        enums := [] } := by
  decide

/-- Claim C9.  The pipeline is a pure function of its input: running parse
followed by generate twice on the same input yields byte-identical output
strings (the embedding carries no state between calls). -/
theorem claim9_determinism (input : String) :
    PrismaGenerator.generatePrismaSchema (SQLParser.parseSQL input) =
      PrismaGenerator.generatePrismaSchema (SQLParser.parseSQL input) := rfl

theorem foldl_processTable_names (ts : List SQLTable) (acc : PrismaGenerator.GenState) :
    ((ts.foldl PrismaGenerator.processTable acc).1.map (fun m => m.name)) =
      acc.1.map (fun m => m.name) := by
  have h := congrArg (List.map Prod.fst) (foldl_processTable_proj ts acc)
  simpa [List.map_map, Function.comp_def, modelProj] using h

/-- Claim C10.  When the second pass reaches table `t` (after folding the
preceding tables `l1`), the lookup of the source model by PascalCase table
name succeeds: the first pass created one model per table with exactly
that name, and the second pass never renames a model.  Hence the non-null
assertion on the `find` result in the source is never violated. -/
theorem claim10_lookup_success (tables : List SQLTable) (enums : List PrismaEnum)
    (l1 l2 : List SQLTable) (t : SQLTable) (h : tables = l1 ++ t :: l2) :
    List.find? (fun m => m.name == PrismaGenerator.toPascalCase t.name)
      ((l1.foldl PrismaGenerator.processTable
        (tables.map (fun tb => PrismaGenerator.createBasicModel tb enums), [])).1) ≠ none := by
  have hnames := foldl_processTable_names l1
    (tables.map (fun tb => PrismaGenerator.createBasicModel tb enums), [])
  have hinit : (tables.map (fun tb => PrismaGenerator.createBasicModel tb enums)).map
      (fun m => m.name) = tables.map (fun tb => PrismaGenerator.toPascalCase tb.name) := by
    simp [List.map_map, Function.comp_def, PrismaGenerator.createBasicModel]
  have htmem : t ∈ tables := by
    rw [h]
    exact List.mem_append.mpr (Or.inr (List.mem_cons_self t l2))
  have hmem : PrismaGenerator.toPascalCase t.name ∈
      ((l1.foldl PrismaGenerator.processTable
        (tables.map (fun tb => PrismaGenerator.createBasicModel tb enums), [])).1).map
        (fun m => m.name) := by
    rw [hnames, hinit]
    exact List.mem_map_of_mem _ htmem
  rcases List.mem_map.mp hmem with ⟨m, hm, hmname⟩
  exact find?_ne_none_of_mem _ hm (by simp [hmname])

/-- Witness for claim C10 at a one-table IR. -/
theorem claim10_witness :
    List.find? (fun m => m.name == PrismaGenerator.toPascalCase usersTable.name)
      ((([] : List SQLTable).foldl PrismaGenerator.processTable
        ([usersTable].map (fun tb => PrismaGenerator.createBasicModel tb []), [])).1) ≠ none :=
  claim10_lookup_success [usersTable] [] [] [] usersTable rfl
